import Mathlib

/-!
Verification of the `inject` dependency-injection container
(`inject.go`) against its specification.

The embedding models Go's reflection layer shallowly:

* `GoType` is a runtime type descriptor (`reflect.Type`): pointer,
  interface, struct, function and base (scalar/channel/...) types.
* `GoData` is the payload of a runtime value: an opaque scalar, an
  address into a small heap (for pointer values), or the nil pointer.
* `RVal` is a valid `reflect.Value` (a typed payload); `GoValue` is
  `Option RVal`, where `none` plays the role of the invalid/zero
  `reflect.Value` (`IsValid() == false`).
* The registry `values map[reflect.Type]reflect.Value` is an
  association list with unique keys; Go map lookup without the comma-ok
  form returns the zero `reflect.Value` for an absent key, which the
  model renders as `none`.
* `Inj` is the `injector` struct: a local map plus an optional parent
  (`root` = no parent, `child` = with parent).
* Go's runtime `Implements` relation between type descriptors is a
  parameter `impl : GoType → GoType → Bool` of every operation that
  needs it, since it is a primitive of the host runtime.
* A Go panic is rendered as `none` / a `crashed` outcome, never as a
  returned error.
-/

namespace Inject

/-- Runtime type descriptor (`reflect.Type`). `fn ps rs` is a function
type with parameter types `ps` and result types `rs`; `base` covers all
remaining concrete kinds (string, int, channels, ...). -/
inductive GoType where
  | ptr : GoType → GoType
  | iface : String → GoType
  | strukt : String → GoType
  | fn : List GoType → List GoType → GoType
  | base : String → GoType
deriving Repr

mutual
def GoType.decEq : (a b : GoType) → Decidable (a = b)
  | .ptr a, .ptr b =>
    match GoType.decEq a b with
    | isTrue h => isTrue (by rw [h])
    | isFalse h => isFalse (fun hh => h (by injection hh))
  | .iface a, .iface b =>
    match String.decEq a b with
    | isTrue h => isTrue (by rw [h])
    | isFalse h => isFalse (fun hh => h (by injection hh))
  | .strukt a, .strukt b =>
    match String.decEq a b with
    | isTrue h => isTrue (by rw [h])
    | isFalse h => isFalse (fun hh => h (by injection hh))
  | .fn ps rs, .fn ps' rs' =>
    match GoType.decEqList ps ps', GoType.decEqList rs rs' with
    | isTrue h1, isTrue h2 => isTrue (by rw [h1, h2])
    | isFalse h1, _ => isFalse (fun hh => h1 (by injection hh))
    | _, isFalse h2 => isFalse (fun hh => h2 (by injection hh))
  | .base a, .base b =>
    match String.decEq a b with
    | isTrue h => isTrue (by rw [h])
    | isFalse h => isFalse (fun hh => h (by injection hh))
  | .ptr _, .iface _ => isFalse (fun h => GoType.noConfusion h)
  | .ptr _, .strukt _ => isFalse (fun h => GoType.noConfusion h)
  | .ptr _, .fn _ _ => isFalse (fun h => GoType.noConfusion h)
  | .ptr _, .base _ => isFalse (fun h => GoType.noConfusion h)
  | .iface _, .ptr _ => isFalse (fun h => GoType.noConfusion h)
  | .iface _, .strukt _ => isFalse (fun h => GoType.noConfusion h)
  | .iface _, .fn _ _ => isFalse (fun h => GoType.noConfusion h)
  | .iface _, .base _ => isFalse (fun h => GoType.noConfusion h)
  | .strukt _, .ptr _ => isFalse (fun h => GoType.noConfusion h)
  | .strukt _, .iface _ => isFalse (fun h => GoType.noConfusion h)
  | .strukt _, .fn _ _ => isFalse (fun h => GoType.noConfusion h)
  | .strukt _, .base _ => isFalse (fun h => GoType.noConfusion h)
  | .fn _ _, .ptr _ => isFalse (fun h => GoType.noConfusion h)
  | .fn _ _, .iface _ => isFalse (fun h => GoType.noConfusion h)
  | .fn _ _, .strukt _ => isFalse (fun h => GoType.noConfusion h)
  | .fn _ _, .base _ => isFalse (fun h => GoType.noConfusion h)
  | .base _, .ptr _ => isFalse (fun h => GoType.noConfusion h)
  | .base _, .iface _ => isFalse (fun h => GoType.noConfusion h)
  | .base _, .strukt _ => isFalse (fun h => GoType.noConfusion h)
  | .base _, .fn _ _ => isFalse (fun h => GoType.noConfusion h)

def GoType.decEqList : (a b : List GoType) → Decidable (a = b)
  | [], [] => isTrue rfl
  | a :: as, b :: bs =>
    match GoType.decEq a b, GoType.decEqList as bs with
    | isTrue h1, isTrue h2 => isTrue (by rw [h1, h2])
    | isFalse h1, _ => isFalse (fun hh => h1 (by injection hh))
    | _, isFalse h2 => isFalse (fun hh => h2 (by injection hh))
  | [], _ :: _ => isFalse (fun h => List.noConfusion h)
  | _ :: _, [] => isFalse (fun h => List.noConfusion h)
end

instance : DecidableEq GoType := GoType.decEq

/-- `t.Kind() == reflect.Interface`. -/
def GoType.isInterface : GoType → Bool
  | .iface _ => true
  | _ => false

/-- `t.Kind() == reflect.Ptr`. -/
def GoType.isPtr : GoType → Bool
  | .ptr _ => true
  | _ => false

/-- `t.Kind() == reflect.Func`. -/
def GoType.isFn : GoType → Bool
  | .fn _ _ => true
  | _ => false

/-- Payload of a runtime value: opaque scalar data, an address held by a
pointer value, or the nil pointer. -/
inductive GoData where
  | scalar : Nat → GoData
  | addr : Nat → GoData
  | nilPtr : GoData
deriving DecidableEq, Repr

/-- A valid `reflect.Value`: a type descriptor together with a payload. -/
structure RVal where
  typ : GoType
  data : GoData
deriving DecidableEq, Repr

/-- A `reflect.Value` that may also be the invalid/zero value
(`IsValid() == false` is `none`). -/
abbrev GoValue := Option RVal

/-- The two error values of `error.go` (`ErrValueNotFound`,
`ErrValueCanNotSet`), each wrapped with the offending type as in
`fmt.Errorf("%w: %v", err, typ)`; `userErr` stands for an arbitrary
error value returned by a `FastInvoker` body. -/
inductive InjErr where
  | valueNotFound : GoType → InjErr
  | valueCanNotSet : GoType → InjErr
  | userErr : Nat → InjErr
deriving DecidableEq, Repr

/-- Go map read without the comma-ok form: the stored value when the key
is present, the zero (invalid) `reflect.Value` otherwise. -/
def mapLookup (vs : List (GoType × GoValue)) (t : GoType) : GoValue :=
  match vs.find? (fun p => p.1 == t) with
  | some p => p.2
  | none => none

/-- Go map assignment `m[t] = v`: overwrite the existing entry for `t`
or append a new one. -/
def mapInsert (vs : List (GoType × GoValue)) (t : GoType) (v : GoValue) :
    List (GoType × GoValue) :=
  match vs with
  | [] => [(t, v)]
  | p :: rest => if p.1 = t then (t, v) :: rest else p :: mapInsert rest t v

/-- Go `delete(m, t)`: remove the entry for `t` if present. -/
def mapDelete (vs : List (GoType × GoValue)) (t : GoType) :
    List (GoType × GoValue) :=
  match vs with
  | [] => []
  | p :: rest => if p.1 = t then rest else p :: mapDelete rest t

/-- The `injector` struct: local `values` map plus optional `parent`.
`root vs` has no parent; `child vs p` has parent `p`. -/
inductive Inj where
  | root : List (GoType × GoValue) → Inj
  | child : List (GoType × GoValue) → Inj → Inj

/-- The local `values` map of an injector. -/
def Inj.vals : Inj → List (GoType × GoValue)
  | .root vs => vs
  | .child vs _ => vs

/-- Whether `parent != nil`. -/
def Inj.hasParent : Inj → Bool
  | .root _ => false
  | .child _ _ => true

/-- Replace the local `values` map, keeping the parent link. -/
def Inj.withVals : Inj → List (GoType × GoValue) → Inj
  | .root _, vs => .root vs
  | .child _ p, vs => .child vs p

/-- `New()`: an empty injector with no parent. -/
def Inj.New : Inj := .root []

/-- `SetParent`: replace the parent link. -/
def Inj.SetParent (i : Inj) (p : Inj) : Inj := .child i.vals p

/-- `InterfaceOf`: strip pointer indirections from the marker's type
(`for t.Kind() == reflect.Ptr { t = t.Elem() }`). -/
def stripPtr : GoType → GoType
  | .ptr t => stripPtr t
  | t => t

/-- `InterfaceOf(value)`: dereference pointer indirections; return the
terminal type when it is an interface, and panic (`none`) otherwise. -/
def InterfaceOf (t : GoType) : Option GoType :=
  let t' := stripPtr t
  if t'.isInterface then some t' else none

/-- `Map(values...)`: register each value under its own runtime type
(`inj.values[reflect.TypeOf(val)] = reflect.ValueOf(val)`). -/
def Inj.Map (i : Inj) (values : List RVal) : Inj :=
  i.withVals (values.foldl (fun m v => mapInsert m v.typ (some v)) i.vals)

/-- `MapTo(val, ifacePtr)`: register `val` under
`InterfaceOf(ifacePtr)`; `none` models the panic propagated from
`InterfaceOf` when the marker is not a pointer to an interface. -/
def Inj.MapTo (i : Inj) (v : RVal) (marker : GoType) : Option Inj :=
  match InterfaceOf marker with
  | some it => some (i.withVals (mapInsert i.vals it (some v)))
  | none => none

/-- `Set(typ, val)`: direct insertion of a (type, value) pair; the
value may be the invalid `reflect.Value`. -/
def Inj.Set (i : Inj) (t : GoType) (v : GoValue) : Inj :=
  i.withVals (mapInsert i.vals t v)

/-- The local part of `injector.Value`: exact map lookup, then — when
the lookup yielded an invalid value and `t` is an interface — a scan of
the registered entries for the first key implementing `t` (taking that
entry's value and breaking, whether or not it is valid). -/
def localResolve (impl : GoType → GoType → Bool)
    (vs : List (GoType × GoValue)) (t : GoType) : GoValue :=
  let val := mapLookup vs t
  if val.isSome then val
  else if t.isInterface then
    match vs.find? (fun p => impl p.1 t) with
    | some p => p.2
    | none => none
  else none

/-- `injector.Value(t)`: local exact match, then implementor scan for
interface types, then delegation to the parent when the local result is
still invalid, else the invalid value. -/
def Inj.Value (impl : GoType → GoType → Bool) : Inj → GoType → GoValue
  | .root vs, t => localResolve impl vs t
  | .child vs p, t =>
    match localResolve impl vs t with
    | some v => some v
    | none => Inj.Value impl p t

/-- `Reset()`: `for k := range inj.values { delete(inj.values, k) }`
followed by `inj.parent = nil`. -/
def Inj.Reset (i : Inj) : Inj :=
  Inj.root (i.vals.foldl (fun m p => mapDelete m p.1) i.vals)

/-- A small heap giving pointer values something to point at; `addr a`
refers to `cells[a]`. -/
structure Heap where
  cells : List GoData
deriving DecidableEq, Repr

def heapGet (h : Heap) (a : Nat) : Option GoData := h.cells[a]?

def heapSet (h : Heap) (a : Nat) (d : GoData) : Heap := ⟨h.cells.set a d⟩

/-- Outcome of `Load`: success with the updated heap, a returned error,
or a runtime panic (`crashed`). -/
inductive LoadOutcome where
  | ok : Heap → LoadOutcome
  | err : InjErr → LoadOutcome
  | crashed : LoadOutcome
deriving DecidableEq, Repr

/-- `injector.Load(val)`: resolve `reflect.TypeOf(val)` — the runtime
type of `val` itself; `ErrValueNotFound` when invalid; then
`ErrValueCanNotSet` when `val` is not a pointer or
`reflect.ValueOf(val).Elem()` is not settable (nil pointer); otherwise
`v.Set(value.Elem())` copies the resolved pointer's pointee into the
target cell. A resolved value on which `.Elem()` cannot be taken
panics (`crashed`). -/
def Inj.Load (impl : GoType → GoType → Bool) (inj : Inj) (h : Heap)
    (val : RVal) : LoadOutcome :=
  let valType := val.typ
  match Inj.Value impl inj valType with
  | none => .err (.valueNotFound valType)
  | some value =>
    if valType.isPtr then
      match val.data with
      | .addr a =>
        match value.typ, value.data with
        | .ptr _, .addr b =>
          match heapGet h b with
          | some d => .ok (heapSet h a d)
          | none => .crashed
        | _, _ => .crashed
      | _ => .err (.valueCanNotSet valType)
    else .err (.valueCanNotSet valType)

/-- One struct field as seen by `Apply`: `settable` is `f.CanSet()`,
`tagged` is the presence of the `inject` tag in the struct type, `typ`
the field's declared type and `val` its current contents. -/
structure Field where
  settable : Bool
  tagged : Bool
  typ : GoType
  val : GoValue
deriving DecidableEq, Repr

/-- `f.CanSet() && ok` — the condition under which `Apply` injects a
field. -/
def injectable (f : Field) : Bool := f.settable && f.tagged

/-- The field loop of `injector.Apply`: for each settable field tagged
`inject`, resolve its declared type; on an invalid resolution return
`ErrValueNotFound` at once (fields already written stay written);
otherwise write the resolved value into the field and continue. -/
def applyFields (resolve : GoType → GoValue) :
    List Field → List Field × Option InjErr
  | [] => ([], none)
  | f :: rest =>
    if injectable f then
      match resolve f.typ with
      | none => (f :: rest, some (.valueNotFound f.typ))
      | some v =>
        let r := applyFields resolve rest
        ({ f with val := some v } :: r.1, r.2)
    else
      let r := applyFields resolve rest
      (f :: r.1, r.2)

/-- The argument of `Apply`, a runtime value: the invalid value (a nil
argument), a pointer (dereferenced by the `v.Kind() == reflect.Ptr`
loop), a struct with its fields, or any other non-struct value. -/
inductive AVal where
  | invalidA : AVal
  | ptrV : AVal → AVal
  | structV : List Field → AVal
  | otherV : GoType → AVal
deriving Repr

/-- `injector.Apply(val)`: dereference pointer indirections; when the
terminal value is a struct, run the field loop (writes go through the
pointers, so the updated struct is re-wrapped); otherwise do nothing and
return nil. -/
def Inj.Apply (impl : GoType → GoType → Bool) (inj : Inj) :
    AVal → AVal × Option InjErr
  | .ptrV v =>
    let r := Inj.Apply impl inj v
    (.ptrV r.1, r.2)
  | .structV fields =>
    let r := applyFields (Inj.Value impl inj) fields
    (.structV r.1, r.2)
  | v => (v, none)

/-- The argument-resolution loop of `injector.fastInvoke`: for each
parameter type in order, `inj.Value(argType)`; on an invalid value stop
with `ErrValueNotFound` naming that type. -/
def argLoopFast (impl : GoType → GoType → Bool) (inj : Inj) :
    List GoType → Except InjErr (List RVal)
  | [] => .ok []
  | ty :: rest =>
    match Inj.Value impl inj ty with
    | none => .error (.valueNotFound ty)
    | some v =>
      match argLoopFast impl inj rest with
      | .ok tail => .ok (v :: tail)
      | .error e => .error e

/-- The argument-resolution loop of `injector.callInvoke` — textually
the same loop as `fastInvoke`'s, building `[]reflect.Value` instead of
`[]interface{}`. -/
def argLoopCall (impl : GoType → GoType → Bool) (inj : Inj) :
    List GoType → Except InjErr (List RVal)
  | [] => .ok []
  | ty :: rest =>
    match Inj.Value impl inj ty with
    | none => .error (.valueNotFound ty)
    | some v =>
      match argLoopCall impl inj rest with
      | .ok tail => .ok (v :: tail)
      | .error e => .error e

/-- `injector.fastInvoke(f, t, numIn)`: resolve the arguments; on
failure return `(nil, err)`; otherwise `f.Invoke(in)`, whose behaviour
is the supplied `fb` (it may return its own error). -/
def Inj.fastInvoke (impl : GoType → GoType → Bool) (inj : Inj)
    (fb : List RVal → List RVal × Option InjErr) (params : List GoType) :
    List RVal × Option InjErr :=
  match argLoopFast impl inj params with
  | .error e => ([], some e)
  | .ok args => fb args

/-- `injector.callInvoke(f, t, numIn)`: resolve the arguments; on
failure return `(nil, err)`; otherwise `reflect.ValueOf(f).Call(in)`
with a nil error, the call's behaviour being the supplied `b`. -/
def Inj.callInvoke (impl : GoType → GoType → Bool) (inj : Inj)
    (b : List RVal → List RVal) (params : List GoType) :
    List RVal × Option InjErr :=
  match argLoopCall impl inj params with
  | .error e => ([], some e)
  | .ok args => (b args, none)

/-- `t.NumIn()`: the parameter count of a function type; panics
(`none`) for every other kind. -/
def numIn : GoType → Option Nat
  | .fn ps _ => some ps.length
  | _ => none

/-- `t.In(i)` for all `i`, as the list of parameter types. -/
def paramsOf : GoType → List GoType
  | .fn ps _ => ps
  | _ => []

/-- A callable handed to `Invoke`: its runtime type, the `FastInvoker`
implementation when the dynamic type has one (`some fb`), and the
behaviour of a generic reflective call of the value. -/
structure Callable where
  typ : GoType
  fast : Option (List RVal → List RVal × Option InjErr)
  body : List RVal → List RVal

/-- `IsFastInvoker(handler)`. -/
def IsFastInvoker (f : Callable) : Bool := f.fast.isSome

/-- `injector.Invoke(f)`: read `t.NumIn()` from `reflect.TypeOf(f)` —
panicking (`none`) when `f` is not of function kind — then dispatch to
`fastInvoke` when `f` implements `FastInvoker` and to `callInvoke`
otherwise. -/
def Inj.Invoke (impl : GoType → GoType → Bool) (inj : Inj) (f : Callable) :
    Option (List RVal × Option InjErr) :=
  match numIn f.typ with
  | none => none
  | some _ =>
    match f.fast with
    | some fb => some (Inj.fastInvoke impl inj fb (paramsOf f.typ))
    | none => some (Inj.callInvoke impl inj f.body (paramsOf f.typ))

/-! ### General lemmas about the registry -/

theorem Inj.vals_withVals (i : Inj) (m : List (GoType × GoValue)) :
    (i.withVals m).vals = m := by
  cases i <;> rfl

theorem mapLookup_cons (p : GoType × GoValue)
    (rest : List (GoType × GoValue)) (t : GoType) :
    mapLookup (p :: rest) t = if p.1 = t then p.2 else mapLookup rest t := by
  by_cases h : p.1 = t
  · have hb : (fun q : GoType × GoValue => q.1 == t) p = true := by simpa using h
    simp [mapLookup, List.find?_cons_of_pos _ hb, h]
  · have hb : ¬ (fun q : GoType × GoValue => q.1 == t) p = true := by simpa using h
    simp [mapLookup, List.find?_cons_of_neg _ hb, h]

theorem mapLookup_insert (m : List (GoType × GoValue)) (t : GoType)
    (w : GoValue) : mapLookup (mapInsert m t w) t = w := by
  induction m with
  | nil => simp [mapInsert, mapLookup]
  | cons p rest ih =>
    by_cases h : p.1 = t
    · simp [mapInsert, h, mapLookup_cons]
    · simp [mapInsert, h, mapLookup_cons, ih]

theorem Inj.Value_of_local_some (impl : GoType → GoType → Bool) (i : Inj)
    (t : GoType) (v : RVal) (h : mapLookup i.vals t = some v) :
    Inj.Value impl i t = some v := by
  cases i with
  | root vs =>
    simp only [Inj.vals] at h
    simp [Inj.Value, localResolve, h]
  | child vs p =>
    simp only [Inj.vals] at h
    simp [Inj.Value, localResolve, h]

/-! ### Claim C1: the lookup order of `Value` -/

/-- Modelled from the spec: steps (1) and (2) of the `Resolve` lookup
order — "return the exact match in the local values map if present;
otherwise, if `t` is an interface type, scan the locally registered
entries and return the value of the first registered key type that
implements `t`". -/
def specLocalSteps (impl : GoType → GoType → Bool)
    (vs : List (GoType × GoValue)) (t : GoType) : GoValue :=
  match mapLookup vs t with
  | some v => some v
  | none =>
    if t.isInterface then (vs.find? (fun p => impl p.1 t)).bind (fun p => p.2)
    else none

/-- Modelled from the spec: the full `Resolve` lookup order — local
steps (1)-(2), then (3) delegate to the parent when one is set, else
(4) the invalid holder. -/
def resolveSpec (impl : GoType → GoType → Bool) : Inj → GoType → GoValue
  | .root vs, t =>
    match specLocalSteps impl vs t with
    | some v => some v
    | none => none
  | .child vs p, t =>
    match specLocalSteps impl vs t with
    | some v => some v
    | none => resolveSpec impl p t

theorem localResolve_eq_specLocalSteps (impl : GoType → GoType → Bool)
    (vs : List (GoType × GoValue)) (t : GoType) :
    localResolve impl vs t = specLocalSteps impl vs t := by
  unfold localResolve specLocalSteps
  cases h : mapLookup vs t with
  | some v => simp [h]
  | none =>
    simp only [h, Option.isSome_none, Bool.false_eq_true, if_false]
    cases ht : t.isInterface <;>
      cases hf : vs.find? (fun p => impl p.1 t) <;> simp [ht, hf]

/-- Claim C1: for every type descriptor `t`, `Value t` follows exactly
the specified lookup order: (1) the exact match in the local values map
when that lookup yields a valid value; (2) otherwise, for interface
types, the value of the first locally registered key type implementing
`t` in encounter order; (3) otherwise the parent's `Value` when a
parent is set; (4) otherwise the invalid value. -/
theorem Value_follows_lookup_order (impl : GoType → GoType → Bool)
    (i : Inj) (t : GoType) :
    Inj.Value impl i t = resolveSpec impl i t := by
  induction i with
  | root vs =>
    simp only [Inj.Value, resolveSpec, localResolve_eq_specLocalSteps]
    cases specLocalSteps impl vs t <;> rfl
  | child vs p ih =>
    simp only [Inj.Value, resolveSpec, localResolve_eq_specLocalSteps]
    cases specLocalSteps impl vs t <;> simp [ih]

/-! ### Claim C2: what `Load` resolves by -/

/-- An implements oracle under which nothing implements anything (no
interfaces take part in the C2 scenario). -/
def noImpl : GoType → GoType → Bool := fun _ _ => false

/-- The registry of the C2 counterexample: exactly the pointee type
`string` is registered, with the value `"x"`. -/
def c2Inj : Inj := Inj.New.Map [⟨.base "string", .scalar 7⟩]

/-- The heap of the C2 counterexample: cell 0 holds the target string
variable. -/
def c2Heap : Heap := ⟨[.scalar 0]⟩

/-- The argument of the C2 counterexample: a non-nil `*string` pointing
at cell 0 — a pointer whose referent is settable. -/
def c2Target : RVal := ⟨.ptr (.base "string"), .addr 0⟩

/-- Counterexample to claim C2 as stated: the pointee type (`string`)
of the pointer argument IS resolvable in the registry, and the argument
is a settable pointer, yet `Load` returns `ValueNotFound` — naming the
pointer type `*string` — instead of copying the resolved value, because
the code resolves by `reflect.TypeOf(val)`, the type of the pointer
itself, not by the pointee's type. -/
theorem load_pointee_resolution_cex :
    Inj.Value noImpl c2Inj (.base "string") = some ⟨.base "string", .scalar 7⟩
    ∧ c2Target.typ = .ptr (.base "string")
    ∧ Inj.Load noImpl c2Inj c2Heap c2Target
      = .err (.valueNotFound (.ptr (.base "string"))) := by
  refine ⟨by decide, by decide, by decide⟩

/-- Claim C2 as amended: `Load` resolves the registry by the runtime
type of the pointer argument itself (so the registry must hold an entry
for the pointer type `*T`, not for `T`); it returns `ValueNotFound`
when that type is unresolved; otherwise it returns `ValueCanNotSet`
when the argument is not a pointer or its referent is not settable
(nil pointer); otherwise it copies the pointee of the resolved pointer
value into the target pointed to by the argument. -/
theorem Load_resolves_by_own_type (impl : GoType → GoType → Bool)
    (inj : Inj) (h : Heap) (val : RVal) :
    (Inj.Value impl inj val.typ = none →
      Inj.Load impl inj h val = .err (.valueNotFound val.typ))
    ∧ (∀ value, Inj.Value impl inj val.typ = some value →
        val.typ.isPtr = false →
        Inj.Load impl inj h val = .err (.valueCanNotSet val.typ))
    ∧ (∀ value, Inj.Value impl inj val.typ = some value →
        val.data = .nilPtr →
        Inj.Load impl inj h val = .err (.valueCanNotSet val.typ))
    ∧ (∀ tp t' a b d, Inj.Value impl inj val.typ = some ⟨.ptr t', .addr b⟩ →
        val.typ = .ptr tp → val.data = .addr a → heapGet h b = some d →
        Inj.Load impl inj h val = .ok (heapSet h a d)) := by
  refine ⟨?_, ?_, ?_, ?_⟩
  · intro hv
    simp [Inj.Load, hv]
  · intro value hv hnp
    simp [Inj.Load, hv, hnp]
  · intro value hv hnil
    unfold Inj.Load
    simp only [hv, hnil]
    cases hp : val.typ.isPtr <;> simp [hp]
  · intro tp t' a b d hv htp hdat hcell
    unfold Inj.Load
    simp only [hv, hdat]
    have hp : val.typ.isPtr = true := by rw [htp]; rfl
    simp [hp, hcell]

/-- Witness for `Load_resolves_by_own_type`: with `*string` registered
as a pointer to cell 0 holding `42`, loading into a `*string` pointing
at cell 1 copies `42` into cell 1. -/
theorem Load_resolves_by_own_type_witness :
    Inj.Load noImpl (Inj.New.Map [⟨.ptr (.base "string"), .addr 0⟩])
      ⟨[.scalar 42, .scalar 0]⟩ ⟨.ptr (.base "string"), .addr 1⟩
    = .ok ⟨[.scalar 42, .scalar 42]⟩ :=
  (Load_resolves_by_own_type noImpl
      (Inj.New.Map [⟨.ptr (.base "string"), .addr 0⟩])
      ⟨[.scalar 42, .scalar 0]⟩ ⟨.ptr (.base "string"), .addr 1⟩).2.2.2
    (.base "string") (.base "string") 1 0 (.scalar 42)
    (by decide) rfl rfl (by decide)

/-! ### Claim C3: `Invoke` resolution and failure semantics -/

/-- Modelled from the spec: the first declared parameter type that the
registry cannot resolve, in declaration order. -/
def firstUnresolved (impl : GoType → GoType → Bool) (inj : Inj) :
    List GoType → Option GoType
  | [] => none
  | ty :: rest =>
    if (Inj.Value impl inj ty).isNone then some ty
    else firstUnresolved impl inj rest

theorem argLoopFast_eq_argLoopCall (impl : GoType → GoType → Bool)
    (inj : Inj) (ps : List GoType) :
    argLoopFast impl inj ps = argLoopCall impl inj ps := by
  induction ps with
  | nil => rfl
  | cons ty rest ih =>
    simp only [argLoopFast, argLoopCall, ih]

theorem argLoopCall_error_of_firstUnresolved (impl : GoType → GoType → Bool)
    (inj : Inj) (ps : List GoType) (ty : GoType)
    (h : firstUnresolved impl inj ps = some ty) :
    argLoopCall impl inj ps = .error (.valueNotFound ty) := by
  induction ps with
  | nil => simp [firstUnresolved] at h
  | cons ty0 rest ih =>
    by_cases h0 : (Inj.Value impl inj ty0).isNone
    · rw [Option.isNone_iff_eq_none] at h0
      simp [firstUnresolved, h0] at h
      subst h
      simp [argLoopCall, h0]
    · obtain ⟨v, hv⟩ := Option.ne_none_iff_exists'.mp
        (by simpa [Option.isNone_iff_eq_none] using h0)
      simp [firstUnresolved, h0] at h
      simp [argLoopCall, hv, ih h]

theorem argLoopCall_ok_of_allResolved (impl : GoType → GoType → Bool)
    (inj : Inj) (ps : List GoType)
    (h : firstUnresolved impl inj ps = none) :
    ∃ args, argLoopCall impl inj ps = .ok args
      ∧ List.Forall₂ (fun ty a => Inj.Value impl inj ty = some a) ps args := by
  induction ps with
  | nil => exact ⟨[], rfl, List.Forall₂.nil⟩
  | cons ty0 rest ih =>
    by_cases h0 : (Inj.Value impl inj ty0).isNone
    · simp [firstUnresolved, h0] at h
    · obtain ⟨v, hv⟩ := Option.ne_none_iff_exists'.mp
        (by simpa [Option.isNone_iff_eq_none] using h0)
      simp only [firstUnresolved, h0, Bool.false_eq_true, if_false] at h
      obtain ⟨args, hargs, hall⟩ := ih h
      exact ⟨v :: args, by simp [argLoopCall, hv, hargs],
        List.Forall₂.cons hv hall⟩

/-- Claim C3: `Invoke` resolves each declared parameter type in order;
when some parameter type is unresolved it returns `ValueNotFound`
naming the first such type, on both the fast-invoke and the generic
path, without calling the function (the result does not depend on the
body `fb`/`b`, which are universally quantified and absent from the
error result); when all parameters resolve, the callable is applied to
the resolved arguments in declared order and its return values (an
empty list when it produces none) are returned. Both paths run the same
argument-resolution loop. -/
theorem Invoke_resolution_semantics (impl : GoType → GoType → Bool)
    (inj : Inj) (ps rs : List GoType)
    (fb : List RVal → List RVal × Option InjErr) (b : List RVal → List RVal) :
    (argLoopFast impl inj ps = argLoopCall impl inj ps)
    ∧ (∀ ty, firstUnresolved impl inj ps = some ty →
        Inj.Invoke impl inj ⟨.fn ps rs, some fb, b⟩
          = some ([], some (.valueNotFound ty))
        ∧ Inj.Invoke impl inj ⟨.fn ps rs, none, b⟩
          = some ([], some (.valueNotFound ty)))
    ∧ (firstUnresolved impl inj ps = none →
        ∃ args, List.Forall₂ (fun ty a => Inj.Value impl inj ty = some a) ps args
          ∧ Inj.Invoke impl inj ⟨.fn ps rs, none, b⟩ = some (b args, none)
          ∧ Inj.Invoke impl inj ⟨.fn ps rs, some fb, b⟩ = some (fb args)) := by
  refine ⟨argLoopFast_eq_argLoopCall impl inj ps, ?_, ?_⟩
  · intro ty h
    have he := argLoopCall_error_of_firstUnresolved impl inj ps ty h
    constructor
    · simp [Inj.Invoke, numIn, paramsOf, Inj.fastInvoke,
        argLoopFast_eq_argLoopCall, he]
    · simp [Inj.Invoke, numIn, paramsOf, Inj.callInvoke, he]
  · intro h
    obtain ⟨args, hargs, hall⟩ := argLoopCall_ok_of_allResolved impl inj ps h
    refine ⟨args, hall, ?_, ?_⟩
    · simp [Inj.Invoke, numIn, paramsOf, Inj.callInvoke, hargs]
    · simp [Inj.Invoke, numIn, paramsOf, Inj.fastInvoke,
        argLoopFast_eq_argLoopCall, hargs]

/-- Witness for `Invoke_resolution_semantics`: with only `string`
registered, invoking a function of parameters `(string, int)` fails
with `ValueNotFound int` on the generic path, the body never being
consulted. -/
theorem Invoke_resolution_semantics_witness :
    Inj.Invoke noImpl (Inj.New.Map [⟨.base "string", .scalar 1⟩])
      ⟨.fn [.base "string", .base "int"] [], none, fun args => args⟩
    = some ([], some (.valueNotFound (.base "int"))) :=
  ((Invoke_resolution_semantics noImpl
      (Inj.New.Map [⟨.base "string", .scalar 1⟩])
      [.base "string", .base "int"] []
      (fun args => (args, none)) (fun args => args)).2.1
    (.base "int") (by decide)).2

/-! ### Claim C4: `Apply` stops at the first unresolved field -/

/-- Modelled from the spec: the index of the first field, in
declaration order, that is injectable but whose declared type the
registry cannot resolve. -/
def firstFail (resolve : GoType → GoValue) : List Field → Option Nat
  | [] => none
  | f :: rest =>
    if injectable f && (resolve f.typ).isNone then some 0
    else (firstFail resolve rest).map (· + 1)

/-- Modelled from the spec: what one pass of the field loop does to a
field when every resolution succeeds — injectable fields receive the
resolved value, others are untouched. -/
def setInjected (resolve : GoType → GoValue) (f : Field) : Field :=
  if injectable f then { f with val := resolve f.typ } else f

theorem applyFields_first_fail (resolve : GoType → GoValue)
    (fields : List Field) (i : Nat) (f : Field)
    (hi : firstFail resolve fields = some i) (hf : fields[i]? = some f) :
    applyFields resolve fields
      = ((fields.take i).map (setInjected resolve) ++ fields.drop i,
         some (.valueNotFound f.typ)) := by
  induction fields generalizing i with
  | nil => simp [firstFail] at hi
  | cons f0 rest ih =>
    by_cases h0 : (injectable f0 && (resolve f0.typ).isNone) = true
    · simp only [firstFail, h0, if_true] at hi
      obtain ⟨hinj, hres⟩ : injectable f0 = true
          ∧ (resolve f0.typ).isNone = true := by simpa using h0
      rw [Option.isNone_iff_eq_none] at hres
      have hi0 : i = 0 := by
        injection hi with h
        omega
      subst hi0
      simp only [List.getElem?_cons_zero, Option.some.injEq] at hf
      subst hf
      simp [applyFields, hinj, hres]
    · simp only [firstFail, h0, if_false] at hi
      obtain ⟨j, hj, hij⟩ := Option.map_eq_some'.mp hi
      subst hij
      simp only [List.getElem?_cons_succ] at hf
      have hrest := ih j hj hf
      by_cases hinj : injectable f0 = true
      · have hres : ¬ (resolve f0.typ).isNone = true := by
          intro hh
          exact h0 (by simp [hinj, hh])
        obtain ⟨v, hv⟩ := Option.ne_none_iff_exists'.mp
          (by simpa [Option.isNone_iff_eq_none] using hres)
        simp [applyFields, hinj, hv, hrest, List.take_succ_cons,
          List.drop_succ_cons, setInjected]
      · simp [applyFields, hinj, hrest, List.take_succ_cons,
          List.drop_succ_cons, setInjected]

theorem firstFail_earlier_resolved (resolve : GoType → GoValue)
    (fields : List Field) (i : Nat)
    (hi : firstFail resolve fields = some i) :
    ∀ j g, j < i → fields[j]? = some g → injectable g = true →
      (resolve g.typ).isSome = true := by
  induction fields generalizing i with
  | nil => simp [firstFail] at hi
  | cons f0 rest ih =>
    intro j g hj hg hinj
    by_cases h0 : (injectable f0 && (resolve f0.typ).isNone) = true
    · simp only [firstFail, h0, if_true, Option.some.injEq] at hi
      omega
    · simp only [firstFail, h0, if_false] at hi
      obtain ⟨j', hj', hij⟩ := Option.map_eq_some'.mp hi
      subst hij
      cases j with
      | zero =>
        simp only [List.getElem?_cons_zero, Option.some.injEq] at hg
        rw [← hg] at hinj ⊢
        have hres : ¬ (resolve f0.typ).isNone = true := by
          intro hh
          exact h0 (by simp [hinj, hh])
        simp only [Option.isNone_iff_eq_none] at hres
        simpa [Option.isSome_iff_ne_none] using hres
      | succ j0 =>
        simp only [List.getElem?_cons_succ] at hg
        exact ih j' hj' j0 g (by omega) hg hinj

/-- Claim C4: applying to (a pointer to) a struct whose first
injectable field with unresolved type sits at index `i`, `Apply`
returns `ValueNotFound` naming that field's type, every injectable
field before index `i` has been overwritten with its resolved registry
value (each of which exists), and the fields from index `i` on are
untouched — no rollback. -/
theorem Apply_stops_at_first_unresolved (impl : GoType → GoType → Bool)
    (inj : Inj) (fields : List Field) (i : Nat) (f : Field)
    (hi : firstFail (Inj.Value impl inj) fields = some i)
    (hf : fields[i]? = some f) :
    Inj.Apply impl inj (.ptrV (.structV fields))
      = (.ptrV (.structV ((fields.take i).map (setInjected (Inj.Value impl inj))
          ++ fields.drop i)),
         some (.valueNotFound f.typ))
    ∧ (∀ j g, j < i → fields[j]? = some g → injectable g = true →
        (Inj.Value impl inj g.typ).isSome = true) := by
  constructor
  · simp [Inj.Apply, applyFields_first_fail (Inj.Value impl inj) fields i f hi hf]
  · exact firstFail_earlier_resolved (Inj.Value impl inj) fields i hi

/-- Witness for `Apply_stops_at_first_unresolved`: a struct whose first
field (`string`) resolves and whose second field (`int`) does not —
`Apply` errors with `ValueNotFound int` and the first field stays
populated. -/
theorem Apply_stops_at_first_unresolved_witness :
    Inj.Apply noImpl (Inj.New.Map [⟨.base "string", .scalar 1⟩])
      (.ptrV (.structV [⟨true, true, .base "string", none⟩,
        ⟨true, true, .base "int", none⟩]))
    = (.ptrV (.structV [⟨true, true, .base "string",
          some ⟨.base "string", .scalar 1⟩⟩,
        ⟨true, true, .base "int", none⟩]),
       some (.valueNotFound (.base "int"))) :=
  (Apply_stops_at_first_unresolved noImpl
      (Inj.New.Map [⟨.base "string", .scalar 1⟩])
      [⟨true, true, .base "string", none⟩, ⟨true, true, .base "int", none⟩]
      1 ⟨true, true, .base "int", none⟩ (by decide) rfl).1

/-! ### Claim C5: `Map`/`MapTo` followed by `Value` -/

/-- Concrete implements oracle for witnesses: `string` implements the
interface `I` and nothing else implements anything. -/
def strImplI : GoType → GoType → Bool
  | .base "string", .iface "I" => true
  | _, _ => false

/-- Claim C5: after `Map v`, `Value` at `v`'s own runtime type returns
`v`; and for `v` implementing the interface denoted by a valid marker,
after `MapTo v marker` the lookup at that interface type returns `v`. -/
theorem Map_MapTo_roundtrip (impl : GoType → GoType → Bool) (i : Inj)
    (v : RVal) (marker it : GoType)
    (him : InterfaceOf marker = some it) (himpl : impl v.typ it = true) :
    Inj.Value impl (Inj.Map i [v]) v.typ = some v
    ∧ ∃ i', Inj.MapTo i v marker = some i'
        ∧ Inj.Value impl i' it = some v := by
  constructor
  · apply Inj.Value_of_local_some
    simp [Inj.Map, Inj.vals_withVals, mapLookup_insert]
  · refine ⟨i.withVals (mapInsert i.vals it (some v)), ?_, ?_⟩
    · simp [Inj.MapTo, him]
    · apply Inj.Value_of_local_some
      simp [Inj.vals_withVals, mapLookup_insert]

/-- Witness for `Map_MapTo_roundtrip`: the marker `*I` is a valid
interface marker, `string` implements `I`, and both round trips hold at
a concrete string value. -/
theorem Map_MapTo_roundtrip_witness :
    InterfaceOf (.ptr (.iface "I")) = some (.iface "I")
    ∧ strImplI (RVal.typ ⟨.base "string", .scalar 3⟩) (.iface "I") = true
    ∧ (Inj.Value strImplI (Inj.Map Inj.New [⟨.base "string", .scalar 3⟩])
          (RVal.typ ⟨.base "string", .scalar 3⟩)
        = some ⟨.base "string", .scalar 3⟩
      ∧ ∃ i', Inj.MapTo Inj.New ⟨.base "string", .scalar 3⟩
            (.ptr (.iface "I")) = some i'
          ∧ Inj.Value strImplI i' (.iface "I")
            = some ⟨.base "string", .scalar 3⟩) :=
  ⟨rfl, rfl,
    Map_MapTo_roundtrip strImplI Inj.New ⟨.base "string", .scalar 3⟩
      (.ptr (.iface "I")) (.iface "I") rfl rfl⟩

/-! ### Claim C6: `Reset` -/

theorem foldl_mapDelete_keys (l : List (GoType × GoValue)) :
    ∀ m : List (GoType × GoValue), l.map Prod.fst = m.map Prod.fst →
      List.foldl (fun acc p => mapDelete acc p.1) m l = [] := by
  induction l with
  | nil =>
    intro m h
    cases m with
    | nil => rfl
    | cons q m' => simp at h
  | cons p l' ih =>
    intro m h
    cases m with
    | nil => simp at h
    | cons q m' =>
      simp only [List.map_cons, List.cons.injEq] at h
      obtain ⟨hq, hm⟩ := h
      simp only [List.foldl_cons]
      have hd : mapDelete (q :: m') p.1 = m' := by
        simp [mapDelete, hq]
      rw [hd]
      exact ih m' hm

theorem Reset_vals_nil (i : Inj) : (Inj.Reset i).vals = [] :=
  foldl_mapDelete_keys i.vals i.vals rfl

/-- Claim C6: after `Reset`, `Value` at every type returns the invalid
value — every previously valid entry is gone — and the parent link is
cleared, so parent-chain lookups fail until a new parent is set. -/
theorem Reset_clears_values_and_parent (impl : GoType → GoType → Bool)
    (i : Inj) (t : GoType) :
    Inj.Value impl (Inj.Reset i) t = none
    ∧ (Inj.Reset i).hasParent = false := by
  constructor
  · have h : (Inj.Reset i).vals = [] := Reset_vals_nil i
    show localResolve impl (Inj.Reset i).vals t = none
    rw [h]
    cases ht : t.isInterface <;> simp [localResolve, mapLookup, ht]
  · rfl

/-! ### Claim C7: `InterfaceOf` misuse panics -/

/-- Claim C7: `InterfaceOf` dereferences pointer indirections until a
non-pointer type; it panics (`none`) exactly when that terminal type is
not an interface, returns the terminal type's descriptor when it is,
and `MapTo` with a panicking marker panics as well. -/
theorem InterfaceOf_and_MapTo_misuse (t marker : GoType) (i : Inj)
    (v : RVal) :
    (InterfaceOf t = none ↔ (stripPtr t).isInterface = false)
    ∧ ((stripPtr t).isInterface = true → InterfaceOf t = some (stripPtr t))
    ∧ (InterfaceOf marker = none → Inj.MapTo i v marker = none) := by
  refine ⟨?_, ?_, ?_⟩
  · unfold InterfaceOf
    cases h : (stripPtr t).isInterface <;> simp [h]
  · intro h
    simp [InterfaceOf, h]
  · intro h
    simp [Inj.MapTo, h]

/-- Witness for `InterfaceOf_and_MapTo_misuse`: the marker
`*SomeConcreteStruct` makes both `InterfaceOf` and `MapTo` panic, and
`*I` yields the interface descriptor `I`. -/
theorem InterfaceOf_and_MapTo_misuse_witness :
    Inj.MapTo Inj.New ⟨.base "string", .scalar 0⟩ (.ptr (.strukt "T")) = none
    ∧ InterfaceOf (.ptr (.iface "I")) = some (.iface "I") :=
  ⟨(InterfaceOf_and_MapTo_misuse (.ptr (.strukt "T")) (.ptr (.strukt "T"))
      Inj.New ⟨.base "string", .scalar 0⟩).2.2
    ((InterfaceOf_and_MapTo_misuse (.ptr (.strukt "T")) (.ptr (.strukt "T"))
      Inj.New ⟨.base "string", .scalar 0⟩).1.mpr rfl),
   (InterfaceOf_and_MapTo_misuse (.ptr (.iface "I")) (.ptr (.iface "I"))
      Inj.New ⟨.base "string", .scalar 0⟩).2.1 rfl⟩

/-! ### Claim C8: `Apply` on non-struct arguments -/

/-- The pointer-dereferencing loop at the head of `Apply`. -/
def derefA : AVal → AVal
  | .ptrV v => derefA v
  | v => v

/-- `v.Kind() == reflect.Struct` after dereferencing. -/
def isStructA : AVal → Bool
  | .structV _ => true
  | _ => false

/-- Claim C8: for every argument that does not dereference to a struct
(including the nil argument and scalars), `Apply` is a no-op: it
returns a nil error and leaves the argument unchanged. (The registry is
untouched by construction: the source's `Apply` only ever reads it
through `Value`, which the embedding reflects by `Apply` not producing
an injector.) -/
theorem Apply_non_struct_noop (impl : GoType → GoType → Bool) (inj : Inj)
    (a : AVal) (h : isStructA (derefA a) = false) :
    Inj.Apply impl inj a = (a, none) := by
  induction a with
  | invalidA => rfl
  | ptrV v ih =>
    have h' : isStructA (derefA v) = false := by simpa [derefA] using h
    simp [Inj.Apply, ih h']
  | structV fields => simp [derefA, isStructA] at h
  | otherV t => rfl

/-- Witness for `Apply_non_struct_noop`: a pointer to a non-struct
value is returned unchanged with a nil error. -/
theorem Apply_non_struct_noop_witness :
    Inj.Apply noImpl Inj.New (.ptrV (.otherV (.base "int")))
    = (.ptrV (.otherV (.base "int")), none) :=
  Apply_non_struct_noop noImpl Inj.New (.ptrV (.otherV (.base "int"))) rfl

/-! ### Claim C9: `Invoke` on non-function values panics -/

/-- Claim C9: `Invoke` on an argument whose runtime type is not of
function kind panics (`none`) instead of returning an error — also when
the argument implements `FastInvoker` through a non-function type —
since the parameter count is read from the argument's type on both
dispatch paths. -/
theorem Invoke_non_function_panics (impl : GoType → GoType → Bool)
    (inj : Inj) (f : Callable) (h : f.typ.isFn = false) :
    Inj.Invoke impl inj f = none := by
  have hn : numIn f.typ = none := by
    cases ht : f.typ with
    | fn ps rs => rw [ht] at h; simp [GoType.isFn] at h
    | ptr t => rfl
    | iface n => rfl
    | strukt n => rfl
    | base n => rfl
  simp [Inj.Invoke, hn]

/-- Witness for `Invoke_non_function_panics`: a `FastInvoker`
implemented on a non-function (`struct`) type still panics. -/
theorem Invoke_non_function_panics_witness :
    Inj.Invoke noImpl Inj.New
      ⟨.strukt "S", some (fun _ => ([], none)), fun args => args⟩ = none :=
  Invoke_non_function_panics noImpl Inj.New
    ⟨.strukt "S", some (fun _ => ([], none)), fun args => args⟩ rfl

/-! ### Claim C10: `MapTo` performs no implements check -/

/-- Claim C10: for every value `v` and valid interface marker, even
when `v`'s type does not implement the marked interface, `MapTo`
succeeds and stores `v` under the interface's descriptor, so the
subsequent exact-match `Value` lookup at that interface returns `v`. -/
theorem MapTo_skips_implements_check (impl : GoType → GoType → Bool)
    (i : Inj) (v : RVal) (marker it : GoType)
    (him : InterfaceOf marker = some it) (hni : impl v.typ it = false) :
    ∃ i', Inj.MapTo i v marker = some i'
      ∧ Inj.Value impl i' it = some v := by
  refine ⟨i.withVals (mapInsert i.vals it (some v)), ?_, ?_⟩
  · simp [Inj.MapTo, him]
  · apply Inj.Value_of_local_some
    simp [Inj.vals_withVals, mapLookup_insert]

/-- Witness for `MapTo_skips_implements_check`: under the oracle where
nothing implements anything, `MapTo` of an `int` value at marker `*I`
still succeeds and `Value I` returns it. -/
theorem MapTo_skips_implements_check_witness :
    noImpl (RVal.typ ⟨.base "int", .scalar 9⟩) (.iface "I") = false
    ∧ ∃ i', Inj.MapTo Inj.New ⟨.base "int", .scalar 9⟩
          (.ptr (.iface "I")) = some i'
        ∧ Inj.Value noImpl i' (.iface "I") = some ⟨.base "int", .scalar 9⟩ :=
  ⟨rfl, MapTo_skips_implements_check noImpl Inj.New ⟨.base "int", .scalar 9⟩
    (.ptr (.iface "I")) (.iface "I") rfl rfl⟩

end Inject
